import Mathlib

/-!
Verification of the MeneBot conversation client.

This file gives a shallow embedding of the core logic of the repository:
the exponential-backoff retry wrapper, the simulated completion stream
(`askAIStream`), the Firestore-backed session/message stores, the REST
(Express + SQLite) backend, and the `handleSend` controller flow, together
with theorems settling the specification claims.

Text is modelled as `List Char`; timestamps as `Nat`; the random jitter of
the backoff policy as an explicit sequence of rationals; network effects
(fetch results, persistence results) as explicit parameters.
-/

namespace MeneBot

/-! Basic text machinery -/

/-- Strings of the program, as character lists. -/
abbrev Text := List Char

/-- JavaScript `String.prototype.includes`: substring containment. -/
def containsSub (needle hay : Text) : Bool :=
  hay.tails.any (fun t => needle.isPrefixOf t)

/-- The character class of the JavaScript regex `\s` (whitespace), covering
the ASCII whitespace characters and the Unicode space separators. -/
def jsWhitespace (c : Char) : Bool :=
  c == ' ' || c == '\t' || c == '\n' || c == '\r' ||
  c.val == 11 || c.val == 12 || c.val == 0xa0 || c.val == 0x1680 ||
  (0x2000 ≤ c.val && c.val ≤ 0x200a) || c.val == 0x2028 || c.val == 0x2029 ||
  c.val == 0x202f || c.val == 0x205f || c.val == 0x3000 || c.val == 0xfeff

/-- Outcome of one invocation of the wrapped async operation: a resolved
value or a rejection carrying the error message. -/
inductive OpResult (α : Type) where
  | ok (v : α)
  | err (msg : Text)
deriving DecidableEq

/-- The retryable-failure test of `withExponentialBackoff`: the error
message contains the substring "429", "500" or "Failed to fetch". -/
def isRetryableMessage (msg : Text) : Bool :=
  containsSub ("429".toList) msg || containsSub ("500".toList) msg ||
    containsSub ("Failed to fetch".toList) msg

/-- Result of `withExponentialBackoff`: the success value, a propagated
(thrown) error message, or the `undefined` returned when `maxRetries = 0`
makes the loop body never run. -/
inductive BackoffResult (α : Type) where
  | success (v : α)
  | thrown (msg : Text)
  | noAttempt
deriving DecidableEq

/-- The retry loop of `withExponentialBackoff`. `fn attempt` is the outcome
of the invocation made at loop counter `attempt`; `jitter attempt` is the
value `Math.random()` produced before that retry's delay; `remaining`
counts the loop iterations left (`maxRetries - attempt`). Returns the
result together with the list of delays (in milliseconds) performed before
each retry, in order. -/
def backoffLoop {α : Type} (fn : Nat → OpResult α) (jitter : Nat → ℚ)
    (maxRetries : Nat) : Nat → Nat → BackoffResult α × List ℚ
  | _, 0 => (.noAttempt, [])
  | attempt, remaining + 1 =>
    match fn attempt with
    | .ok v => (.success v, [])
    | .err msg =>
      if attempt == maxRetries - 1 || !(isRetryableMessage msg) then
        (.thrown msg, [])
      else
        let d : ℚ := 2 ^ attempt * 1000 + jitter attempt * 1000
        let r := backoffLoop fn jitter maxRetries (attempt + 1) remaining
        (r.1, d :: r.2)

/-- `withExponentialBackoff(fn, maxRetries)`, returning the final result and
the sequence of retry delays it slept, in milliseconds. -/
def withExponentialBackoff {α : Type} (fn : Nat → OpResult α) (jitter : Nat → ℚ)
    (maxRetries : Nat) : BackoffResult α × List ℚ :=
  backoffLoop fn jitter maxRetries 0 maxRetries

/-! CompletionStream — `askAIStream`.

The repository has three variants of the same generator:
  * src/index.js lines 77-118 (`pullFB` below): catches failures, returns
    an ERROR-marker value; an exhausted stream returns `{ done: true }`
    with no value;
  * src/src/App.jsx lines 56-116 (`pullApp` below): catches failures; an
    exhausted stream returns `{ done: true, value: fullResponse }`;
  * src/unnamed/part_000 lines 62-116 (`pullPart0` below): performs the
    fetch with no try/catch and without checking `response.ok`, so a
    network-level rejection propagates out of `next()`; an exhausted
    stream returns `{ done: true, value: full }`.

All three split the reply with `full.split(/(\s+)/).filter(...)`, which
partitions the text into maximal runs of whitespace / non-whitespace. -/

/-- Split into maximal runs of characters agreeing on the predicate `p`,
accumulating the current run (reversed) in `acc`. This is the result of
`full.split(/(\s+)/).filter(c => c.length > 0)`: every run of whitespace
is kept as its own fragment, all other fragments are whitespace-free, and
nothing is dropped. -/
def splitRunsAux (p : Char → Bool) : List Char → List Char → List (List Char)
  | [], acc => if acc.isEmpty then [] else [acc.reverse]
  | c :: cs, acc =>
    match acc with
    | [] => splitRunsAux p cs [c]
    | a :: rest =>
      if p c == p a then splitRunsAux p cs (c :: a :: rest)
      else (a :: rest).reverse :: splitRunsAux p cs [c]

/-- `full.split(/(\s+)/).filter(c => c.length > 0)`. -/
def splitRuns (s : Text) : List Text :=
  splitRunsAux jsWhitespace s []

/-- One pull result, mirroring the JS iterator object `{value?, done}`. -/
structure PullResult where
  value : Option Text
  done : Bool
deriving DecidableEq

/-- Mutable closure state of one `askAIStream` instance:
`fullResponse` (null before the fetch), `chunks`, `chunkIndex`. -/
structure StreamSt where
  fullResponse : Option Text
  chunks : List Text
  chunkIndex : Nat
deriving DecidableEq

/-- The state of a freshly constructed stream. -/
def initialStream : StreamSt := ⟨none, [], 0⟩

/-- Outcome of the completion fetch (for the variants that check
`response.ok` and catch errors): a 2xx response whose reply text sits at
`data.candidates?.[0]?.content?.parts?.[0]?.text` (`none` when that path
is absent), or a failure (non-2xx status or network error, after the
backoff wrapper has given up). -/
inductive FetchOutcome where
  | ok (replyText : Option Text)
  | fail (msg : Text)
deriving DecidableEq

/-- The default substituted by `... || "No response received from AI."`. -/
def noResponseText : Text := "No response received from AI.".toList

/-- Value of the ERROR fragment produced by the catch branch of `next()`. -/
def errorValueText (msg : Text) : Text :=
  "ERROR: Failed to connect to AI. Details: ".toList ++ msg

/-- `data.candidates?...text || "No response received from AI."`: the
missing path and the empty string are both falsy in JavaScript. -/
def effectiveReply (replyText : Option Text) : Text :=
  match replyText with
  | none => noResponseText
  | some t => if t.isEmpty then noResponseText else t

/-- `next()` of the src/index.js variant of `askAIStream`. On the first
pull (`fullResponse === null`) it performs the fetch (through the backoff
wrapper); a failure is caught and turned into an ERROR-marker value with
`done: true`; a success records the reply, splits it, and execution falls
through to the chunk-yield code. An exhausted stream returns
`{ done: true }` with no value. -/
def pullFB (st : StreamSt) (fetch : FetchOutcome) : PullResult × StreamSt :=
  match st.fullResponse with
  | none =>
    match fetch with
    | .fail msg => (⟨some (errorValueText msg), true⟩, st)
    | .ok replyText =>
      let full := effectiveReply replyText
      let cs := splitRuns full
      if cs.length ≤ st.chunkIndex then (⟨none, true⟩, ⟨some full, cs, st.chunkIndex⟩)
      else (⟨some (cs.getD st.chunkIndex []), false⟩, ⟨some full, cs, st.chunkIndex + 1⟩)
  | some full =>
    if st.chunks.length ≤ st.chunkIndex then (⟨none, true⟩, st)
    else (⟨some (st.chunks.getD st.chunkIndex []), false⟩,
          ⟨some full, st.chunks, st.chunkIndex + 1⟩)

/-- `next()` of the src/src/App.jsx variant of `askAIStream`. Identical to
the src/index.js variant except that the exhausted stream returns
`{ done: true, value: fullResponse }`. -/
def pullApp (st : StreamSt) (fetch : FetchOutcome) : PullResult × StreamSt :=
  match st.fullResponse with
  | none =>
    match fetch with
    | .fail msg => (⟨some (errorValueText msg), true⟩, st)
    | .ok replyText =>
      let full := effectiveReply replyText
      let cs := splitRuns full
      if cs.length ≤ st.chunkIndex then (⟨some full, true⟩, ⟨some full, cs, st.chunkIndex⟩)
      else (⟨some (cs.getD st.chunkIndex []), false⟩, ⟨some full, cs, st.chunkIndex + 1⟩)
  | some full =>
    if st.chunks.length ≤ st.chunkIndex then (⟨some full, true⟩, st)
    else (⟨some (st.chunks.getD st.chunkIndex []), false⟩,
          ⟨some full, st.chunks, st.chunkIndex + 1⟩)

/-- What the wire delivered to the src/unnamed/part_000 variant, which
never inspects `response.ok`: either `fetch`/`json()` rejected (the
rejection propagates — there is no try/catch), or a response body whose
reply text sits at the candidates path (`none` when absent, which includes
every non-2xx error body). -/
inductive FetchWire where
  | netFail (msg : Text)
  | resp (bodyText : Option Text)
deriving DecidableEq

/-- The default substituted by `... || "…"` in src/unnamed/part_000. -/
def ellipsisText : Text := "…".toList

/-- `data?.candidates?...text || "…"` of the part_000 variant. -/
def effectiveReply0 (bodyText : Option Text) : Text :=
  match bodyText with
  | none => ellipsisText
  | some t => if t.isEmpty then ellipsisText else t

/-- `next()` of the src/unnamed/part_000 variant of `askAIStream`. There is
no try/catch: a network-level rejection propagates out of the pull
(modelled as `Except.error`). An exhausted stream returns
`{ done: true, value: full }`. -/
def pullPart0 (st : StreamSt) (wire : FetchWire) : Except Text (PullResult × StreamSt) :=
  match st.fullResponse with
  | none =>
    match wire with
    | .netFail msg => .error msg
    | .resp bodyText =>
      let full := effectiveReply0 bodyText
      let cs := splitRuns full
      if cs.length ≤ st.chunkIndex then
        .ok (⟨some full, true⟩, ⟨some full, cs, st.chunkIndex⟩)
      else .ok (⟨some (cs.getD st.chunkIndex []), false⟩, ⟨some full, cs, st.chunkIndex + 1⟩)
  | some full =>
    if st.chunks.length ≤ st.chunkIndex then .ok (⟨some full, true⟩, st)
    else .ok (⟨some (st.chunks.getD st.chunkIndex []), false⟩,
              ⟨some full, st.chunks, st.chunkIndex + 1⟩)

/-- The caller's driver loop (`while (!next.done)` in src/index.js,
`for await (const chunk of stream)` in the other variants): keep pulling,
collecting the values of the non-done results, until the stream signals
completion. `fuel` bounds the number of pulls; every theorem supplies
enough fuel for the stream to finish. -/
def collectFuel (fetch : FetchOutcome)
    (pull : StreamSt → FetchOutcome → PullResult × StreamSt) :
    Nat → StreamSt → List Text
  | 0, _ => []
  | n + 1, st =>
    match pull st fetch with
    | (⟨some v, false⟩, st1) => v :: collectFuel fetch pull n st1
    | _ => []

/-- A session document. -/
structure Session where
  id : Nat
  title : Text
  createdAt : Nat
deriving DecidableEq

/-- A message document. -/
structure Msg where
  id : Nat
  sessionId : Nat
  sender : Text
  text : Text
  ts : Nat
deriving DecidableEq

/-- The Firestore store: the `sessions` and `messages` collections. -/
structure FirestoreState where
  sessions : List Session
  messages : List Msg
deriving DecidableEq

/-- `deleteSession` in src/index.js lines 371-404: one write batch deletes
every message document matching `where('sessionId', '==', id)` together
with the session document, and `batch.commit()` applies the whole batch
atomically — the function is a single state transition. Deleting documents
that do not exist is a no-op in Firestore, and the commit succeeds. -/
def deleteSessionFS (st : FirestoreState) (sid : Nat) : FirestoreState :=
  { sessions := st.sessions.filter (fun s => s.id != sid),
    messages := st.messages.filter (fun m => m.sessionId != sid) }

/-- `createSession` in src/index.js lines 343-362: guarded by
`if (!db || !userId) return;`, then `addDoc` persists exactly one new
session document. -/
def createSessionFS (dbAndUser : Bool) (store : List Session)
    (title : Text) (newId ts : Nat) : List Session :=
  if dbAndUser then store ++ [⟨newId, title, ts⟩] else store

/-- The auto-start logic of the sessions `onSnapshot` listener,
src/index.js lines 428-437: with a non-empty snapshot and no current
session, select the first fetched session; with an empty snapshot and a
signed-in user, schedule exactly one `createSession('Auto-Start Chat')`
call; otherwise do nothing. -/
inductive AutoAction where
  | selectSession (id : Nat)
  | scheduleAutoCreate
  | noAction
deriving DecidableEq

/-- Action taken by one invocation of the sessions snapshot handler. -/
def sessionsSnapshotAction (fetched : List Session) (currentSessionId : Option Nat)
    (userIdPresent : Bool) : AutoAction :=
  match fetched with
  | s :: _ => if currentSessionId.isNone then .selectSession s.id else .noAction
  | [] => if userIdPresent then .scheduleAutoCreate else .noAction

/-- Ascending comparison on message timestamps, the comparator
`(a, b) => a.timestamp.getTime() - b.timestamp.getTime()`. -/
def msgLe (a b : Msg) : Bool := a.ts ≤ b.ts

/-- The messages `onSnapshot` listener of src/index.js lines 448-485: the
query filters `where('sessionId', '==', currentSessionId)` with
`limit(100)` (no orderBy, so the store's document order is used for the
cap), and the handler then sorts the fetched documents client-side by
timestamp ascending. -/
def fbMessagesView (store : List Msg) (sid : Nat) : List Msg :=
  ((store.filter (fun m => m.sessionId == sid)).take 100).mergeSort msgLe

/-! REST backend (Express + SQLite), appended to src/src/App.jsx. -/

/-- A row of the `chats` table. -/
structure RestChat where
  id : Nat
  title : Text
deriving DecidableEq

/-- A row of the `messages` table. -/
structure RestMsg where
  id : Nat
  chatId : Nat
  sender : Text
  content : Text
  ts : Nat
deriving DecidableEq

/-- The SQLite database. -/
structure RestDb where
  chats : List RestChat
  msgs : List RestMsg
deriving DecidableEq

/-- An HTTP response of the REST backend: status code and body message. -/
structure RestResp where
  status : Nat
  body : Text
deriving DecidableEq

/-- Ascending comparison on message rows (`ORDER BY timestamp ASC`). -/
def restMsgLe (a b : RestMsg) : Bool := a.ts ≤ b.ts

/-- `GET /api/chats/:id/messages` (src/src/App.jsx lines 982-993):
`SELECT ... FROM messages WHERE chat_id = ? ORDER BY timestamp ASC` —
note there is no LIMIT clause; the whole history is returned. -/
def restListMessages (db : RestDb) (cid : Nat) : List RestMsg :=
  (db.msgs.filter (fun m => m.chatId == cid)).mergeSort restMsgLe

/-- `DELETE /api/chats/:id` (src/src/App.jsx lines 965-979): run
`DELETE FROM chats WHERE chat_id = ?`; if `this.changes === 0` respond
`404 Chat not found`, otherwise respond 200. The messages table declares
`ON DELETE CASCADE`, but SQLite keeps foreign-key enforcement off by
default and the server never runs `PRAGMA foreign_keys = ON`, so the
DELETE removes only the chat row: the chat's messages stay behind,
orphaned. -/
def restDeleteChat (db : RestDb) (cid : Nat) : RestResp × RestDb :=
  let remaining := db.chats.filter (fun c => c.id != cid)
  if remaining.length == db.chats.length then (⟨404, "Chat not found".toList⟩, db)
  else (⟨200, "Chat deleted successfully".toList⟩, ⟨remaining, db.msgs⟩)

/-- A database holding one chat and 101 messages for it, exhibiting the
missing LIMIT of the messages listing. -/
def bigRestDb : RestDb :=
  ⟨[⟨1, "chat".toList⟩],
   (List.range 101).map (fun i => ⟨i, 1, "user".toList, "m".toList, i⟩)⟩

/-! ConversationController — `handleSend` in src/index.js lines 518-593. -/

/-- One turn of the request context sent to the completion endpoint. -/
structure Turn where
  role : Text
  text : Text
deriving DecidableEq

/-- The error-marker test string of `msg.text.startsWith("ERROR")`. -/
def errorMarker : Text := "ERROR".toList

/-- The turn built from one stored message:
`{ role: msg.sender === 'user' ? 'user' : 'model', parts: [{text: msg.text}] }`. -/
def toTurn (m : Msg) : Turn :=
  ⟨if m.sender = "user".toList then "user".toList else "model".toList, m.text⟩

/-- The history construction of `handleSend` (src/index.js lines 530-537):

    const chatHistoryForAPI = messages
        .filter(msg => !msg.text.startsWith("ERROR"))
        .map(msg => ({ role: msg.sender === 'user' ? 'user' : 'model',
                       parts: [{ text: msg.text }] }));
    chatHistoryForAPI.push({ role: 'user', parts: [{ text: userInput }] });
-/
def chatHistoryForAPI (messages : List Msg) (userInput : Text) : List Turn :=
  ((messages.filter (fun m => !(errorMarker.isPrefixOf m.text))).map toTurn)
  ++ [⟨"user".toList, userInput⟩]

/-- Modelled from the claim's wording, for comparison with
`chatHistoryForAPI`: the in-order sequence of non-error-marker messages
mapped to user/model turns, followed by the new user turn. -/
def specContextTurns : List Msg → List Turn
  | [] => []
  | m :: rest =>
    match errorMarker.isPrefixOf m.text with
    | true => specContextTurns rest
    | false => toTurn m :: specContextTurns rest

/-- The request context as the claim describes it. -/
def specRequestContext (messages : List Msg) (userInput : Text) : List Turn :=
  specContextTurns messages ++ [⟨"user".toList, userInput⟩]

/-- An operation that rejects with "HTTP 429" on its first four
invocations and resolves with 7 on the fifth. -/
def demoFn429 : Nat → OpResult Nat :=
  fun i => if i < 4 then .err ("HTTP 429".toList) else .ok 7

/-- The error messages produced by `demoFn429`. -/
def demoMsgs429 : Nat → Text := fun _ => "HTTP 429".toList

/-- A fixed jitter of one half for the witnesses. -/
def halfJitter : Nat → ℚ := fun _ => 1 / 2

/-- A persisted user message used by the witnesses. -/
def demoUserMsg : Msg := ⟨0, 1, "user".toList, "hi".toList, 1⟩

/-- A persisted error-marker bot message used by the witnesses. -/
def demoErrMsg : Msg := ⟨1, 1, "bot".toList, "ERROR: Failed to connect".toList, 5⟩

/-! Helper lemmas about the whitespace split -/

/-- Flattening the runs produced with accumulator `acc` restores the
reversed accumulator followed by the remaining input. -/
theorem splitRunsAux_flatten (p : Char → Bool) (s : List Char) :
    ∀ acc : List Char, (splitRunsAux p s acc).flatten = acc.reverse ++ s := by
  induction s with
  | nil =>
    intro acc
    cases acc <;> simp [splitRunsAux]
  | cons c cs ih =>
    intro acc
    match acc with
    | [] => simpa using ih [c]
    | a :: rest =>
      by_cases h : p c == p a
      · simp only [splitRunsAux, h, if_pos]
        rw [ih (c :: a :: rest)]
        simp
      · simp only [splitRunsAux, h, if_neg, Bool.not_eq_true]
        rw [List.flatten_cons, ih [c]]
        simp

/-- Every fragment produced with a `p`-homogeneous accumulator is nonempty
and homogeneous with respect to `p`. -/
theorem splitRunsAux_runs (p : Char → Bool) (s : List Char) :
    ∀ (acc : List Char) (b : Bool), (∀ c ∈ acc, p c = b) →
      ∀ fr ∈ splitRunsAux p s acc,
        fr ≠ [] ∧ ((∀ c ∈ fr, p c = true) ∨ (∀ c ∈ fr, p c = false)) := by
  induction s with
  | nil =>
    intro acc b hacc fr hfr
    match acc with
    | [] => simp [splitRunsAux] at hfr
    | a :: rest =>
      simp [splitRunsAux] at hfr
      subst hfr
      refine ⟨by simp, ?_⟩
      cases b with
      | true =>
        exact Or.inl (by
          intro c hc
          exact hacc c (by
            rw [← List.reverse_cons] at hc
            exact List.mem_reverse.mp hc))
      | false =>
        exact Or.inr (by
          intro c hc
          exact hacc c (by
            rw [← List.reverse_cons] at hc
            exact List.mem_reverse.mp hc))
  | cons c cs ih =>
    intro acc b hacc fr hfr
    match acc with
    | [] =>
      simp only [splitRunsAux] at hfr
      exact ih [c] (p c) (by simp) fr hfr
    | a :: rest =>
      by_cases h : p c == p a
      · simp only [splitRunsAux, h, if_pos] at hfr
        refine ih (c :: a :: rest) b ?_ fr hfr
        intro x hx
        rcases List.mem_cons.mp hx with rfl | hx
        · calc p x = p a := by simpa using h
            _ = b := hacc a (by simp)
        · exact hacc x hx
      · simp only [splitRunsAux, h, if_neg, Bool.not_eq_true, List.mem_cons] at hfr
        rcases hfr with rfl | hfr
        · refine ⟨by simp, ?_⟩
          cases b with
          | true =>
            exact Or.inl (by
              intro x hx
              exact hacc x (by simpa only [List.mem_reverse] using hx))
          | false =>
            exact Or.inr (by
              intro x hx
              exact hacc x (by simpa only [List.mem_reverse] using hx))
        · exact ih [c] (p c) (by simp) fr hfr

/-- Concatenating the whitespace split restores the original text. -/
theorem splitRuns_flatten (s : Text) : (splitRuns s).flatten = s := by
  simpa using splitRunsAux_flatten jsWhitespace s []

/-- Each fragment of the whitespace split is a nonempty run that is either
all whitespace or whitespace-free. -/
theorem splitRuns_runs (s : Text) :
    ∀ fr ∈ splitRuns s,
      fr ≠ [] ∧ ((∀ c ∈ fr, jsWhitespace c = true) ∨ (∀ c ∈ fr, jsWhitespace c = false)) :=
  splitRunsAux_runs jsWhitespace s [] true (by simp)

/-- The split of a nonempty text is nonempty. -/
theorem splitRuns_ne_nil (s : Text) (h : s ≠ []) : splitRuns s ≠ [] := by
  intro hc
  apply h
  have := splitRuns_flatten s
  rw [hc] at this
  simpa using this.symm

/-! Helper lemmas about driving a fetched stream -/

/-- After the fetch has happened, the src/index.js driver loop emits the
remaining chunks in order (up to the available fuel). -/
theorem collectFuel_fetched_FB (fetch : FetchOutcome) (full : Text) (cs : List Text) :
    ∀ (fuel i : Nat),
      collectFuel fetch pullFB fuel ⟨some full, cs, i⟩ = (cs.drop i).take fuel := by
  intro fuel
  induction fuel with
  | zero => intro i; simp [collectFuel]
  | succ n ih =>
    intro i
    by_cases h : cs.length ≤ i
    · simp [collectFuel, pullFB, h, List.drop_eq_nil_of_le h]
    · have hi : i < cs.length := Nat.lt_of_not_le h
      simp only [collectFuel, pullFB, if_neg h]
      rw [ih (i + 1), ← List.getElem_cons_drop _ _ hi, List.take_succ_cons,
        List.getD_eq_getElem cs [] hi]

/-- Same driver lemma for the src/src/App.jsx stream. -/
theorem collectFuel_fetched_App (fetch : FetchOutcome) (full : Text) (cs : List Text) :
    ∀ (fuel i : Nat),
      collectFuel fetch pullApp fuel ⟨some full, cs, i⟩ = (cs.drop i).take fuel := by
  intro fuel
  induction fuel with
  | zero => intro i; simp [collectFuel]
  | succ n ih =>
    intro i
    by_cases h : cs.length ≤ i
    · simp [collectFuel, pullApp, h, List.drop_eq_nil_of_le h]
    · have hi : i < cs.length := Nat.lt_of_not_le h
      simp only [collectFuel, pullApp, if_neg h]
      rw [ih (i + 1), ← List.getElem_cons_drop _ _ hi, List.take_succ_cons,
        List.getD_eq_getElem cs [] hi]

/-- A nonempty reply is its own effective reply. -/
theorem effectiveReply_of_ne_nil (reply : Text) (h : reply ≠ []) :
    effectiveReply (some reply) = reply := by
  simp [effectiveReply, List.isEmpty_iff, h]

/-- Generic first-pull-then-drain computation shared by the two catching
stream variants. -/
theorem collect_ok_full (pull : StreamSt → FetchOutcome → PullResult × StreamSt)
    (reply c0 : Text) (ctail : List Text) (extra : Nat)
    (hsp : splitRuns reply = c0 :: ctail)
    (hfirst : pull initialStream (FetchOutcome.ok (some reply))
        = (⟨some c0, false⟩, ⟨some reply, c0 :: ctail, 1⟩))
    (hrest : ∀ fuel i,
        collectFuel (FetchOutcome.ok (some reply)) pull fuel ⟨some reply, c0 :: ctail, i⟩
          = ((c0 :: ctail).drop i).take fuel) :
    collectFuel (FetchOutcome.ok (some reply)) pull
        ((splitRuns reply).length + extra) initialStream = splitRuns reply := by
  rw [hsp]
  have hfuel : (c0 :: ctail).length + extra = (ctail.length + extra) + 1 := by
    simp only [List.length_cons]
    omega
  rw [hfuel]
  simp only [collectFuel, hfirst]
  rw [hrest (ctail.length + extra) 1]
  simp [List.take_of_length_le]

/-- C1: every fragment sequence pulled from `askAIStream` (both the
src/index.js and the src/src/App.jsx variant) is exactly the whitespace
split of the reply, concatenating it restores the reply byte-for-byte,
and each fragment is a nonempty run that is either pure whitespace or
whitespace-free — the split retains whitespace runs and drops nothing. -/
theorem stream_fragments_reconstruct_reply (reply : Text) (hne : reply ≠ []) (extra : Nat) :
    collectFuel (FetchOutcome.ok (some reply)) pullFB
        ((splitRuns reply).length + extra) initialStream = splitRuns reply
    ∧ collectFuel (FetchOutcome.ok (some reply)) pullApp
        ((splitRuns reply).length + extra) initialStream = splitRuns reply
    ∧ (splitRuns reply).flatten = reply
    ∧ (∀ fr ∈ splitRuns reply,
        fr ≠ [] ∧ ((∀ c ∈ fr, jsWhitespace c = true) ∨ (∀ c ∈ fr, jsWhitespace c = false))) := by
  have heff : effectiveReply (some reply) = reply := effectiveReply_of_ne_nil reply hne
  have hcs : splitRuns reply ≠ [] := splitRuns_ne_nil reply hne
  obtain ⟨c0, ctail, hsp⟩ : ∃ c0 ctail, splitRuns reply = c0 :: ctail := by
    rcases h : splitRuns reply with _ | ⟨c0, ctail⟩
    · exact absurd h hcs
    · exact ⟨c0, ctail, rfl⟩
  refine ⟨?_, ?_, splitRuns_flatten reply, splitRuns_runs reply⟩
  · refine collect_ok_full pullFB reply c0 ctail extra hsp ?_ ?_
    · simp [pullFB, initialStream, heff, hsp]
    · intro fuel i
      exact collectFuel_fetched_FB (FetchOutcome.ok (some reply)) reply (c0 :: ctail) fuel i
  · refine collect_ok_full pullApp reply c0 ctail extra hsp ?_ ?_
    · simp [pullApp, initialStream, heff, hsp]
    · intro fuel i
      exact collectFuel_fetched_App (FetchOutcome.ok (some reply)) reply (c0 :: ctail) fuel i

/-- Witness for C1 at the concrete reply "Hi there!". -/
theorem stream_fragments_reconstruct_reply_witness :
    ("Hi there!".toList : Text) ≠ []
    ∧ (collectFuel (FetchOutcome.ok (some ("Hi there!".toList))) pullFB
          ((splitRuns ("Hi there!".toList)).length + 0) initialStream
        = splitRuns ("Hi there!".toList)
      ∧ collectFuel (FetchOutcome.ok (some ("Hi there!".toList))) pullApp
          ((splitRuns ("Hi there!".toList)).length + 0) initialStream
        = splitRuns ("Hi there!".toList)
      ∧ (splitRuns ("Hi there!".toList)).flatten = "Hi there!".toList
      ∧ (∀ fr ∈ splitRuns ("Hi there!".toList),
          fr ≠ [] ∧ ((∀ c ∈ fr, jsWhitespace c = true) ∨ (∀ c ∈ fr, jsWhitespace c = false)))) :=
  ⟨by decide, stream_fragments_reconstruct_reply ("Hi there!".toList) (by decide) 0⟩

/-! Helper step lemmas for the backoff loop -/

/-- A successful invocation returns its value immediately, with no delay. -/
theorem backoffLoop_ok_step {α : Type} (fn : Nat → OpResult α) (jitter : Nat → ℚ)
    (maxRetries attempt remaining : Nat) (v : α)
    (hrem : remaining ≠ 0) (hfn : fn attempt = .ok v) :
    backoffLoop fn jitter maxRetries attempt remaining = (.success v, []) := by
  obtain ⟨r, rfl⟩ : ∃ r, remaining = r + 1 := ⟨remaining - 1, by omega⟩
  simp [backoffLoop, hfn]

/-- A failing invocation on the last attempt, or with a non-retryable
message, propagates the failure immediately. -/
theorem backoffLoop_throw_step {α : Type} (fn : Nat → OpResult α) (jitter : Nat → ℚ)
    (maxRetries attempt remaining : Nat) (msg : Text)
    (hrem : remaining ≠ 0) (hfn : fn attempt = .err msg)
    (hstop : attempt = maxRetries - 1 ∨ isRetryableMessage msg = false) :
    backoffLoop fn jitter maxRetries attempt remaining = (.thrown msg, []) := by
  obtain ⟨r, rfl⟩ : ∃ r, remaining = r + 1 := ⟨remaining - 1, by omega⟩
  rcases hstop with h | h
  · subst h
    simp [backoffLoop, hfn]
  · simp [backoffLoop, hfn, h]

/-- A retryable failure with attempts remaining sleeps
`2^attempt * 1000 + jitter * 1000` milliseconds and retries. -/
theorem backoffLoop_retry_step {α : Type} (fn : Nat → OpResult α) (jitter : Nat → ℚ)
    (maxRetries attempt remaining : Nat) (msg : Text)
    (hrem : remaining ≠ 0) (hfn : fn attempt = .err msg)
    (hretry : isRetryableMessage msg = true) (hlast : attempt ≠ maxRetries - 1) :
    backoffLoop fn jitter maxRetries attempt remaining
      = ((backoffLoop fn jitter maxRetries (attempt + 1) (remaining - 1)).1,
         (2 ^ attempt * 1000 + jitter attempt * 1000 : ℚ)
           :: (backoffLoop fn jitter maxRetries (attempt + 1) (remaining - 1)).2) := by
  obtain ⟨r, rfl⟩ : ∃ r, remaining = r + 1 := ⟨remaining - 1, by omega⟩
  simp [backoffLoop, hfn, hretry, hlast]

/-- C2: an operation that fails with a 429 on its first four invocations
and succeeds on the fifth, run with `maxRetries = 5`, yields the success
value after exactly 4 retry delays, the delay before retry `attempt + 1`
being `2 ^ attempt` seconds plus the jitter (between 0 and 1 second),
expressed in milliseconds. -/
theorem backoff_429_then_success {α : Type} (fn : Nat → OpResult α) (msgs : Nat → Text)
    (jitter : Nat → ℚ) (v : α)
    (hfail : ∀ i, i < 4 → fn i = .err (msgs i))
    (h429 : ∀ i, i < 4 → containsSub ("429".toList) (msgs i) = true)
    (hok : fn 4 = .ok v)
    (hj : ∀ i, 0 ≤ jitter i ∧ jitter i < 1) :
    (withExponentialBackoff fn jitter 5).1 = .success v
    ∧ (withExponentialBackoff fn jitter 5).2.length = 4
    ∧ (withExponentialBackoff fn jitter 5).2
        = [(2 ^ 0 + jitter 0) * 1000, (2 ^ 1 + jitter 1) * 1000,
           (2 ^ 2 + jitter 2) * 1000, (2 ^ 3 + jitter 3) * 1000]
    ∧ (∀ i, i < 4 →
        (2 ^ i : ℚ) * 1000 ≤ (2 ^ i + jitter i) * 1000
        ∧ (2 ^ i + jitter i) * 1000 < 2 ^ i * 1000 + 1000) := by
  have hr : ∀ i, i < 4 → isRetryableMessage (msgs i) = true := by
    intro i hi
    unfold isRetryableMessage
    rw [h429 i hi]
    rfl
  have s0 := backoffLoop_retry_step fn jitter 5 0 5 (msgs 0) (by omega)
    (hfail 0 (by omega)) (hr 0 (by omega)) (by omega)
  have s1 := backoffLoop_retry_step fn jitter 5 1 4 (msgs 1) (by omega)
    (hfail 1 (by omega)) (hr 1 (by omega)) (by omega)
  have s2 := backoffLoop_retry_step fn jitter 5 2 3 (msgs 2) (by omega)
    (hfail 2 (by omega)) (hr 2 (by omega)) (by omega)
  have s3 := backoffLoop_retry_step fn jitter 5 3 2 (msgs 3) (by omega)
    (hfail 3 (by omega)) (hr 3 (by omega)) (by omega)
  have s4 := backoffLoop_ok_step fn jitter 5 4 1 v (by omega) hok
  norm_num at s0 s1 s2 s3
  have e : withExponentialBackoff fn jitter 5
      = (.success v, [(1000 + jitter 0 * 1000 : ℚ), 2000 + jitter 1 * 1000,
          4000 + jitter 2 * 1000, 8000 + jitter 3 * 1000]) := by
    rw [withExponentialBackoff, s0, s1, s2, s3, s4]
  refine ⟨by rw [e], by rw [e]; rfl, by rw [e]; norm_num [add_mul], ?_⟩
  intro i hi
  have hnn : (0 : ℚ) ≤ jitter i * 1000 :=
    mul_nonneg (hj i).1 (by norm_num)
  have hlt : jitter i * 1000 < 1000 := by
    have := mul_lt_mul_of_pos_right (hj i).2 (show (0 : ℚ) < 1000 by norm_num)
    simpa using this
  constructor
  · rw [add_mul]
    linarith
  · rw [add_mul]
    linarith

/-- Witness for C2: fails four times with "HTTP 429", succeeds with 7 on
the fifth invocation, jitter one half. -/
theorem backoff_429_then_success_witness :
    (∀ i, i < 4 → demoFn429 i = OpResult.err (demoMsgs429 i))
    ∧ (∀ i, i < 4 → containsSub ("429".toList) (demoMsgs429 i) = true)
    ∧ demoFn429 4 = OpResult.ok 7
    ∧ (withExponentialBackoff demoFn429 halfJitter 5).1 = BackoffResult.success 7
    ∧ (withExponentialBackoff demoFn429 halfJitter 5).2.length = 4 := by
  have T := backoff_429_then_success demoFn429 demoMsgs429 halfJitter 7
    (by decide) (by decide) (by decide)
    (by intro i; exact ⟨by norm_num [halfJitter], by norm_num [halfJitter]⟩)
  exact ⟨by decide, by decide, by decide, T.1, T.2.1⟩

/-- When every attempt fails with a retryable message, the loop sleeps
once per attempt except the last and propagates the last failure. -/
theorem backoffLoop_exhaust {α : Type} (fn : Nat → OpResult α) (msgs : Nat → Text)
    (jitter : Nat → ℚ) (maxRetries : Nat) :
    ∀ remaining attempt, attempt + remaining = maxRetries → 0 < remaining →
      (∀ i, attempt ≤ i → i < maxRetries →
        fn i = .err (msgs i) ∧ isRetryableMessage (msgs i) = true) →
      backoffLoop fn jitter maxRetries attempt remaining
        = (.thrown (msgs (maxRetries - 1)),
           (List.range' attempt (remaining - 1)).map
             (fun i => (2 ^ i * 1000 + jitter i * 1000 : ℚ))) := by
  intro remaining
  induction remaining with
  | zero => intro attempt h1 h2 _; omega
  | succ r ih =>
    intro attempt h1 _ hall
    rcases Nat.eq_zero_or_pos r with rfl | hr
    · have ha : attempt = maxRetries - 1 := by omega
      have := backoffLoop_throw_step fn jitter maxRetries attempt 1 (msgs attempt)
        (by omega) (hall attempt (by omega) (by omega)).1 (Or.inl ha)
      rw [this, ha]
      simp
    · have ha : attempt ≠ maxRetries - 1 := by omega
      have hstep := backoffLoop_retry_step fn jitter maxRetries attempt (r + 1) (msgs attempt)
        (by omega) (hall attempt (by omega) (by omega)).1
        (hall attempt (by omega) (by omega)).2 ha
      rw [hstep]
      simp only [Nat.add_sub_cancel]
      have hrec := ih (attempt + 1) (by omega) (by omega)
        (fun i hi1 hi2 => hall i (by omega) hi2)
      rw [hrec]
      conv_rhs => rw [show r = (r - 1) + 1 from by omega, List.range'_succ]
      simp

/-- C3 counterexample: an operation failing with an HTTP 503 — a 5xx
status with four attempts remaining — is not retried at all: the failure
propagates immediately with zero delays, because the code only looks for
the substrings "429", "500" and "Failed to fetch". -/
theorem backoff_503_not_retried :
    withExponentialBackoff
        (fun _ => OpResult.err ("503 Service Unavailable".toList) : Nat → OpResult Nat)
        halfJitter 5
      = (BackoffResult.thrown ("503 Service Unavailable".toList), [])
    ∧ isRetryableMessage ("503 Service Unavailable".toList) = false := by
  constructor
  · decide
  · decide

/-- C3 (amended): `withExponentialBackoff` retries a failure iff its
message contains "429", "500" or "Failed to fetch" (not every 5xx) and
attempts remain; a non-retryable failure propagates immediately with no
delay; exhausting all attempts propagates the last failure after
`maxRetries - 1` delays. -/
theorem backoff_retry_characterization {α : Type} (fn : Nat → OpResult α)
    (jitter : Nat → ℚ) (maxRetries : Nat) (hm : 0 < maxRetries) :
    (∀ m, fn 0 = .err m → isRetryableMessage m = false →
      withExponentialBackoff fn jitter maxRetries = (.thrown m, []))
    ∧ (∀ m, fn 0 = .err m → isRetryableMessage m = true → 1 < maxRetries →
      withExponentialBackoff fn jitter maxRetries
        = ((backoffLoop fn jitter maxRetries 1 (maxRetries - 1)).1,
           (2 ^ 0 * 1000 + jitter 0 * 1000 : ℚ)
             :: (backoffLoop fn jitter maxRetries 1 (maxRetries - 1)).2))
    ∧ (∀ msgs : Nat → Text,
       (∀ i, i < maxRetries → fn i = .err (msgs i) ∧ isRetryableMessage (msgs i) = true) →
      withExponentialBackoff fn jitter maxRetries
        = (.thrown (msgs (maxRetries - 1)),
           (List.range (maxRetries - 1)).map
             (fun i => (2 ^ i * 1000 + jitter i * 1000 : ℚ)))) := by
  refine ⟨?_, ?_, ?_⟩
  · intro m hfn hnr
    exact backoffLoop_throw_step fn jitter maxRetries 0 maxRetries m
      (by omega) hfn (Or.inr hnr)
  · intro m hfn hre hgt
    exact backoffLoop_retry_step fn jitter maxRetries 0 maxRetries m
      (by omega) hfn hre (by omega)
  · intro msgs hall
    have := backoffLoop_exhaust fn msgs jitter maxRetries maxRetries 0
      (by omega) hm (fun i _ hi2 => hall i hi2)
    rw [withExponentialBackoff, this, List.range_eq_range']

/-- Witness for C3 (amended): a 404 — a non-retryable 4xx — propagates
immediately without any retry. -/
theorem backoff_retry_characterization_witness :
    (0 : Nat) < 5
    ∧ withExponentialBackoff
        (fun _ => OpResult.err ("404 Not Found".toList) : Nat → OpResult Nat)
        halfJitter 5
      = (BackoffResult.thrown ("404 Not Found".toList), []) :=
  ⟨by decide,
   (backoff_retry_characterization
      (fun _ => OpResult.err ("404 Not Found".toList) : Nat → OpResult Nat)
      halfJitter 5 (by decide)).1
     ("404 Not Found".toList) rfl (by decide)⟩

/-- C4 counterexample: in the src/index.js variant, after the stream for
the reply "Hi" has yielded all of its fragments, the next pull signals
`done: true` but carries no value at all — not the full reply text. -/
theorem pullFB_exhausted_carries_no_value :
    (pullFB ((pullFB initialStream (FetchOutcome.ok (some ("Hi".toList)))).2)
        (FetchOutcome.ok (some ("Hi".toList)))).1
      = ⟨none, true⟩
    ∧ (pullFB ((pullFB initialStream (FetchOutcome.ok (some ("Hi".toList)))).2)
        (FetchOutcome.ok (some ("Hi".toList)))).1.value
      ≠ some ("Hi".toList) := by
  constructor
  · decide
  · decide

/-- C4 (amended): once a stream has yielded all of its fragments, the next
pull signals completion in every variant; in the src/src/App.jsx and
src/unnamed/part_000 variants its value is the full reply text, while the
src/index.js variant returns `{ done: true }` with no value. -/
theorem stream_final_pull (full : Text) (cs : List Text) (i : Nat)
    (h : cs.length ≤ i) (fetch : FetchOutcome) (wire : FetchWire) :
    pullApp ⟨some full, cs, i⟩ fetch = (⟨some full, true⟩, ⟨some full, cs, i⟩)
    ∧ pullPart0 ⟨some full, cs, i⟩ wire = .ok (⟨some full, true⟩, ⟨some full, cs, i⟩)
    ∧ pullFB ⟨some full, cs, i⟩ fetch = (⟨none, true⟩, ⟨some full, cs, i⟩) := by
  refine ⟨?_, ?_, ?_⟩
  · simp [pullApp, h]
  · simp [pullPart0, h]
  · simp [pullFB, h]

/-- Witness for C4 (amended) on the exhausted one-chunk stream for "Hi". -/
theorem stream_final_pull_witness :
    ([("Hi".toList : Text)] : List Text).length ≤ 1
    ∧ (pullApp ⟨some ("Hi".toList), [("Hi".toList)], 1⟩ (FetchOutcome.ok none)
        = (⟨some ("Hi".toList), true⟩, ⟨some ("Hi".toList), [("Hi".toList)], 1⟩)
      ∧ pullPart0 ⟨some ("Hi".toList), [("Hi".toList)], 1⟩ (FetchWire.resp none)
        = .ok (⟨some ("Hi".toList), true⟩, ⟨some ("Hi".toList), [("Hi".toList)], 1⟩)
      ∧ pullFB ⟨some ("Hi".toList), [("Hi".toList)], 1⟩ (FetchOutcome.ok none)
        = (⟨none, true⟩, ⟨some ("Hi".toList), [("Hi".toList)], 1⟩)) :=
  ⟨by decide,
   stream_final_pull ("Hi".toList) [("Hi".toList)] 1 (by decide)
     (FetchOutcome.ok none) (FetchWire.resp none)⟩

/-- C5 counterexample: in the src/unnamed/part_000 variant there is no
try/catch around the fetch, so a network-level rejection propagates out of
the pull as an exception instead of being returned as an error-marker
value with the completion signal. -/
theorem pullPart0_netFail_throws :
    pullPart0 initialStream (FetchWire.netFail ("Failed to fetch".toList))
      = Except.error ("Failed to fetch".toList) := by
  rfl

/-- C5 (amended): in the src/index.js and src/src/App.jsx variants a
failing completion fetch makes the pull return the single human-readable
ERROR-marker value together with `done: true`, never throwing; in the
src/unnamed/part_000 variant a network-level rejection propagates as an
exception instead. Once the first fetch has succeeded
(`fullResponse ≠ null`), no later pull of any variant can fail: it is
exactly either the next fragment or the clean completion result. -/
theorem stream_error_behaviour (msg full : Text) (cs : List Text) (i : Nat)
    (fetch : FetchOutcome) (wire : FetchWire) :
    pullFB initialStream (.fail msg) = (⟨some (errorValueText msg), true⟩, initialStream)
    ∧ pullApp initialStream (.fail msg) = (⟨some (errorValueText msg), true⟩, initialStream)
    ∧ pullFB ⟨some full, cs, i⟩ fetch
        = (if i < cs.length
           then (⟨some (cs.getD i []), false⟩, ⟨some full, cs, i + 1⟩)
           else (⟨none, true⟩, ⟨some full, cs, i⟩))
    ∧ pullApp ⟨some full, cs, i⟩ fetch
        = (if i < cs.length
           then (⟨some (cs.getD i []), false⟩, ⟨some full, cs, i + 1⟩)
           else (⟨some full, true⟩, ⟨some full, cs, i⟩))
    ∧ (∃ out, pullPart0 ⟨some full, cs, i⟩ wire = .ok out) := by
  refine ⟨by simp [pullFB, initialStream], by simp [pullApp, initialStream], ?_, ?_, ?_⟩
  · by_cases h : cs.length ≤ i
    · simp [pullFB, h, Nat.not_lt.mpr h]
    · simp [pullFB, h, Nat.lt_of_not_le h]
  · by_cases h : cs.length ≤ i
    · simp [pullApp, h, Nat.not_lt.mpr h]
    · simp [pullApp, h, Nat.lt_of_not_le h]
  · by_cases h : cs.length ≤ i
    · exact ⟨(⟨some full, true⟩, ⟨some full, cs, i⟩), by simp [pullPart0, h]⟩
    · exact ⟨(⟨some (cs.getD i []), false⟩, ⟨some full, cs, i + 1⟩), by simp [pullPart0, h]⟩

/-- C6 counterexample: the REST backend's `DELETE /api/chats/:id` on an id
that does not exist responds with HTTP 404 "Chat not found" — an error,
not a no-op success. -/
theorem restDelete_missing_id_is_404 :
    (restDeleteChat ⟨[], []⟩ 1).1 = ⟨404, "Chat not found".toList⟩
    ∧ (restDeleteChat ⟨[], []⟩ 1).1.status ≠ 200 := by
  constructor
  · decide
  · decide

/-- C6 (amended): in the Firestore variant, deleting a session removes the
session and every message with the matching session id as one atomic
state transition, removes nothing else, is idempotent, and a nonexistent
id is a no-op success. The REST variant responds 404 "Chat not found" for
a nonexistent id, and for an existing id deletes only the chat row: the
declared ON DELETE CASCADE never fires because the server never enables
SQLite foreign-key enforcement, so the chat's messages survive the delete,
orphaned. -/
theorem session_delete_cascade (st : FirestoreState) (sid : Nat) (db : RestDb) (cid : Nat) :
    (∀ s ∈ (deleteSessionFS st sid).sessions, s.id ≠ sid)
    ∧ (∀ m ∈ (deleteSessionFS st sid).messages, m.sessionId ≠ sid)
    ∧ (∀ s ∈ st.sessions, s.id ≠ sid → s ∈ (deleteSessionFS st sid).sessions)
    ∧ (∀ m ∈ st.messages, m.sessionId ≠ sid → m ∈ (deleteSessionFS st sid).messages)
    ∧ deleteSessionFS (deleteSessionFS st sid) sid = deleteSessionFS st sid
    ∧ ((∀ s ∈ st.sessions, s.id ≠ sid) → (∀ m ∈ st.messages, m.sessionId ≠ sid) →
        deleteSessionFS st sid = st)
    ∧ ((∀ c ∈ db.chats, c.id ≠ cid) →
        restDeleteChat db cid = (⟨404, "Chat not found".toList⟩, db))
    ∧ ((∃ c ∈ db.chats, c.id = cid) →
        (restDeleteChat db cid).1.status = 200
        ∧ (∀ c ∈ (restDeleteChat db cid).2.chats, c.id ≠ cid)
        ∧ (restDeleteChat db cid).2.msgs = db.msgs) := by
  refine ⟨?_, ?_, ?_, ?_, ?_, ?_, ?_, ?_⟩
  · intro s hs
    have := (List.mem_filter.mp hs).2
    simpa using this
  · intro m hm
    have := (List.mem_filter.mp hm).2
    simpa using this
  · intro s hs hne
    exact List.mem_filter.mpr ⟨hs, by simpa using hne⟩
  · intro m hm hne
    exact List.mem_filter.mpr ⟨hm, by simpa using hne⟩
  · simp [deleteSessionFS, List.filter_filter]
  · intro h1 h2
    have e1 : st.sessions.filter (fun s => s.id != sid) = st.sessions :=
      List.filter_eq_self.mpr (fun s hs => by simpa using h1 s hs)
    have e2 : st.messages.filter (fun m => m.sessionId != sid) = st.messages :=
      List.filter_eq_self.mpr (fun m hm => by simpa using h2 m hm)
    rw [deleteSessionFS, e1, e2]
  · intro h
    have e : db.chats.filter (fun c => c.id != cid) = db.chats :=
      List.filter_eq_self.mpr (fun c hc => by simpa using h c hc)
    rw [restDeleteChat, e]
    simp
  · rintro ⟨c, hc, rfl⟩
    have hlt : (db.chats.filter (fun x => x.id != c.id)).length < db.chats.length :=
      List.length_filter_lt_length_iff_exists.mpr ⟨c, hc, by simp⟩
    have hne : ((db.chats.filter (fun x => x.id != c.id)).length
        == db.chats.length) = false := by
      simpa using Nat.ne_of_lt hlt
    rw [restDeleteChat]
    simp only [hne, Bool.false_eq_true, if_false]
    refine ⟨trivial, ?_, trivial⟩
    intro x hx
    have := (List.mem_filter.mp hx).2
    simpa using this

/-- Witness for C6 (amended): concrete no-op deletion, 404 response, and a
200 cascade. -/
theorem session_delete_cascade_witness :
    deleteSessionFS ⟨[], []⟩ 1 = ⟨[], []⟩
    ∧ restDeleteChat ⟨[], []⟩ 1 = (⟨404, "Chat not found".toList⟩, ⟨[], []⟩)
    ∧ (restDeleteChat ⟨[⟨1, []⟩], []⟩ 1).1.status = 200 := by
  refine ⟨?_, ?_, ?_⟩
  · exact (session_delete_cascade ⟨[], []⟩ 1 ⟨[], []⟩ 1).2.2.2.2.2.1
      (by simp) (by simp)
  · exact (session_delete_cascade ⟨[], []⟩ 1 ⟨[], []⟩ 1).2.2.2.2.2.2.1 (by simp)
  · exact ((session_delete_cascade ⟨[], []⟩ 1 ⟨[⟨1, []⟩], []⟩ 1).2.2.2.2.2.2.2
      ⟨⟨1, []⟩, by simp, rfl⟩).1

/-- C7 counterexample: the REST messages listing has no LIMIT clause; on a
chat with 101 stored messages it returns all 101 of them, exceeding every
cap in the claimed 50–100 window. -/
theorem restMessages_uncapped :
    (restListMessages bigRestDb 1).length = 101
    ∧ ¬((restListMessages bigRestDb 1).length ≤ 100) := by
  have h : (restListMessages bigRestDb 1).length = 101 := by
    rw [restListMessages, List.length_mergeSort]
    decide
  exact ⟨h, by omega⟩

/-- C7 (amended): both listings return the session's messages ordered
non-decreasing by timestamp regardless of the store's arrival order; the
Firestore listener caps the window at 100 documents, while the REST
handler returns the full history uncapped (a permutation of every stored
message of the chat). -/
theorem messages_list_sorted_and_capped (store : List Msg) (sid : Nat)
    (db : RestDb) (cid : Nat) :
    List.Sorted (fun a b : Msg => a.ts ≤ b.ts) (fbMessagesView store sid)
    ∧ (fbMessagesView store sid).length ≤ 100
    ∧ (∀ m ∈ fbMessagesView store sid, m.sessionId = sid)
    ∧ List.Sorted (fun a b : RestMsg => a.ts ≤ b.ts) (restListMessages db cid)
    ∧ (restListMessages db cid).Perm (db.msgs.filter (fun m => m.chatId == cid))
    ∧ (∀ m ∈ restListMessages db cid, m.chatId = cid) := by
  have htrans : ∀ a b c : Msg, msgLe a b = true → msgLe b c = true → msgLe a c = true := by
    intro a b c h1 h2
    simp only [msgLe, decide_eq_true_eq] at *
    omega
  have htotal : ∀ a b : Msg, (msgLe a b || msgLe b a) = true := by
    intro a b
    simp only [msgLe, Bool.or_eq_true, decide_eq_true_eq]
    omega
  have rtrans : ∀ a b c : RestMsg,
      restMsgLe a b = true → restMsgLe b c = true → restMsgLe a c = true := by
    intro a b c h1 h2
    simp only [restMsgLe, decide_eq_true_eq] at *
    omega
  have rtotal : ∀ a b : RestMsg, (restMsgLe a b || restMsgLe b a) = true := by
    intro a b
    simp only [restMsgLe, Bool.or_eq_true, decide_eq_true_eq]
    omega
  refine ⟨?_, ?_, ?_, ?_, ?_, ?_⟩
  · have := List.sorted_mergeSort htrans htotal
      ((store.filter (fun m => m.sessionId == sid)).take 100)
    exact this.imp (fun h => by simpa [msgLe] using h)
  · rw [fbMessagesView, List.length_mergeSort]
    exact List.length_take_le 100 _
  · intro m hm
    have h1 : m ∈ (store.filter (fun m => m.sessionId == sid)).take 100 :=
      (List.mergeSort_perm _ msgLe).subset hm
    have h2 := List.take_subset 100 _ h1
    have := (List.mem_filter.mp h2).2
    simpa using this
  · have := List.sorted_mergeSort rtrans rtotal (db.msgs.filter (fun m => m.chatId == cid))
    exact this.imp (fun h => by simpa [restMsgLe] using h)
  · exact List.mergeSort_perm _ restMsgLe
  · intro m hm
    have h1 : m ∈ db.msgs.filter (fun m => m.chatId == cid) :=
      (List.mergeSort_perm _ restMsgLe).subset hm
    have := (List.mem_filter.mp h1).2
    simpa using this

/-- Witness for C7 (amended) at concrete stores. -/
theorem messages_list_sorted_and_capped_witness :
    List.Sorted (fun a b : RestMsg => a.ts ≤ b.ts) (restListMessages bigRestDb 1)
    ∧ (fbMessagesView [] 5).length ≤ 100 :=
  ⟨(messages_list_sorted_and_capped [] 5 bigRestDb 1).2.2.2.1,
   (messages_list_sorted_and_capped [] 5 bigRestDb 1).2.1⟩

/-- C9: one empty-snapshot observation with a signed-in user schedules the
auto-create action, and executing the scheduled `createSession` adds
exactly one session — one observation yields exactly one new session. -/
theorem empty_snapshot_creates_one_session (currentSessionId : Option Nat)
    (title : Text) (newId ts : Nat) :
    sessionsSnapshotAction [] currentSessionId true = .scheduleAutoCreate
    ∧ createSessionFS true [] title newId ts = [⟨newId, title, ts⟩]
    ∧ (createSessionFS true [] title newId ts).length = 1
    ∧ (∀ store, (createSessionFS true store title newId ts).length = store.length + 1) := by
  refine ⟨rfl, rfl, rfl, ?_⟩
  intro store
  simp [createSessionFS]

/-- The filter-map pipeline of the code equals the sequential description
of the claim. -/
theorem specContextTurns_eq (l : List Msg) :
    (l.filter (fun m => !(errorMarker.isPrefixOf m.text))).map toTurn
      = specContextTurns l := by
  induction l with
  | nil => rfl
  | cons m rest ih =>
    cases h : errorMarker.isPrefixOf m.text with
    | true => simp [specContextTurns, List.filter_cons, h, ih]
    | false => simp [specContextTurns, List.filter_cons, h, ih]

/-- C10: the request context of `handleSend` equals the in-order sequence
of non-error-marker messages mapped to user/model turns followed by the
new user turn, and inserting a persisted error-marker message anywhere in
the history leaves the request context unchanged — error markers never
feed back into completion requests. -/
theorem request_context_excludes_error_markers (messages : List Msg) (userInput : Text) :
    chatHistoryForAPI messages userInput = specRequestContext messages userInput
    ∧ (∀ pre post : List Msg, ∀ m : Msg, errorMarker.isPrefixOf m.text = true →
        chatHistoryForAPI (pre ++ m :: post) userInput
          = chatHistoryForAPI (pre ++ post) userInput) := by
  constructor
  · rw [chatHistoryForAPI, specRequestContext, specContextTurns_eq]
  · intro pre post m h
    rw [chatHistoryForAPI, chatHistoryForAPI]
    congr 1
    rw [List.filter_append, List.filter_append, List.filter_cons]
    simp [h]

/-- Witness for C10: a history containing an error-marker bot message
produces a context holding only the user turn and the new input. -/
theorem request_context_excludes_error_markers_witness :
    chatHistoryForAPI [demoUserMsg, demoErrMsg] ("next".toList)
      = specRequestContext [demoUserMsg, demoErrMsg] ("next".toList)
    ∧ chatHistoryForAPI [demoUserMsg, demoErrMsg] ("next".toList)
      = [⟨"user".toList, "hi".toList⟩, ⟨"user".toList, "next".toList⟩] :=
  ⟨(request_context_excludes_error_markers [demoUserMsg, demoErrMsg] ("next".toList)).1,
   by decide⟩

end MeneBot
